import Mathlib

/-!
Shallow embedding of the agent-analytics CLI (a JavaScript command-line
client for a web-analytics SaaS).  The definitions below are translated
from the repository's source:

* `src/bin/cli.mjs`, function `cmdLive` — the live-dashboard loop: per-tick
  snapshot fetching with per-project error fallback, aggregation of totals,
  merging/sorting/capping of top-pages and recent-events lists, and the
  per-project row rendering;
* `src/unnamed/part_005` / `src/unnamed/part_006` (`lib/api.mjs`) — the
  HTTP client's `request` method (success/error decision and the error
  message it throws);
* `src/unnamed/part_004` (`lib/config.mjs`) — the config-file store
  (`getConfig`, `saveConfig`, `getApiKey`, `setApiKey`).

JavaScript-value conventions used throughout: a field that may be absent
from a decoded JSON object is modelled as an `Option`; `v || fallback`
on a possibly-absent number is `orZero`, on a possibly-absent string is
`jsOrStr`; `undefined > 0` (which is `false` in JS) coincides with
`orZero v > 0`, modelled by `jsGtZero`.
-/

/-- JS `v || 0` for a possibly-absent numeric field (absent and `0` are both falsy). -/
def orZero : Option Nat → Nat
  | some n => n
  | none => 0

/-- JS `v || []` for a possibly-absent array field. -/
def orNil {α : Type} : Option (List α) → List α
  | some l => l
  | none => []

/-- JS `v > 0` on a possibly-absent numeric field (`undefined > 0` is `false`). -/
def jsGtZero (v : Option Nat) : Bool :=
  match v with
  | some n => decide (0 < n)
  | none => false

/-- JS `v || fb` for a possibly-absent string field (absent and `""` are falsy). -/
def jsOrStr : Option String → String → String
  | some s, fb => if s = "" then fb else s
  | none, fb => fb

/-- JS template interpolation of a possibly-absent number (`undefined` prints as the word). -/
def showOptNat : Option Nat → String
  | some n => toString n
  | none => "undefined"

/-- JS `String.prototype.padEnd(n)` with the default space padding. -/
def padEnd (s : String) (n : Nat) : String :=
  s ++ String.mk (List.replicate (n - s.length) ' ')

/-! ### A fragment of JSON values, for decoded response bodies and the config object. -/

/-- Scalar JSON values, as far as the claims need them. -/
inductive JValue where
  | str (s : String)
  | num (n : Int)
  | boolean (b : Bool)
  | null
deriving DecidableEq, Repr

/-- JS truthiness of a `JValue`. -/
def jvTruthy : JValue → Bool
  | .str s => decide (s ≠ "")
  | .num n => decide (n ≠ 0)
  | .boolean b => b
  | .null => false

/-- JS `String(v)` conversion, as used when a value becomes an `Error` message. -/
def jvToString : JValue → String
  | .str s => s
  | .num n => toString n
  | .boolean b => if b then "true" else "false"
  | .null => "null"

/-- A decoded JSON object: an ordered association list of fields. -/
abbrev Obj : Type := List (String × JValue)

/-- JS property read `o.k` (`none` models `undefined`). -/
def objGet (o : Obj) (k : String) : Option JValue :=
  (o.find? (fun kv => kv.1 == k)).map (fun kv => kv.2)

/-- JS property write `o.k = v`: updates the field in place when present
(keeping key order), otherwise appends it. -/
def objSet (o : Obj) (k : String) (v : JValue) : Obj :=
  if (List.find? (fun kv => kv.1 == k) o).isSome then
    o.map (fun kv => if kv.1 == k then (k, v) else kv)
  else
    o ++ [(k, v)]

/-! ### HTTP client: `request` (lib/api.mjs, src/unnamed/part_005 and part_006)

```js
const res = await fetch(`${this.baseUrl}${path}`, opts);
const data = await res.json();
if (!res.ok) {
  throw new Error(data.error || `HTTP ${res.status}`);
}
return data;
```

`res.ok` is the WHATWG fetch `Response.ok`: status in the range 200–299.
The embedding takes the response status and the decoded JSON body as
inputs and returns `Except`: `.error msg` models `throw new Error(msg)`.
-/

/-- WHATWG fetch `Response.ok`: HTTP status in 200..299. -/
def resOk (status : Nat) : Bool :=
  decide (200 ≤ status) && decide (status < 300)

/-- The message of the error thrown on a non-success status:
`data.error || \x60HTTP ${res.status}\x60` (JS `||`, so a falsy `error`
field — absent, empty string, `0`, `null` — falls back to the generic text). -/
def errMessage (status : Nat) (data : Obj) : String :=
  match objGet data "error" with
  | some v => if jvTruthy v then jvToString v else "HTTP " ++ toString status
  | none => "HTTP " ++ toString status

/-- `request` outcome for a response with the given status and decoded body
(part_006 version; part_005 additionally wraps the body with response
headers when `returnHeaders` is set, with the identical success/error
decision and message). -/
def request (status : Nat) (data : Obj) : Except String Obj :=
  if resOk status then .ok data
  else .error (errMessage status data)

/-! ### Config store (lib/config.mjs, src/unnamed/part_004)

```js
export function getConfig() {
  try { return JSON.parse(readFileSync(CONFIG_FILE, 'utf8')); }
  catch { return {}; }
}
export function saveConfig(config) {
  mkdirSync(CONFIG_DIR, { recursive: true });
  writeFileSync(CONFIG_FILE, JSON.stringify(config, null, 2) + '\n', { mode: 0o600 });
}
export function getApiKey() {
  const config = getConfig();
  return process.env.AGENT_ANALYTICS_KEY || config.api_key || null;
}
export function setApiKey(key) {
  const config = getConfig();
  config.api_key = key;
  saveConfig(config);
}
```

The state of the config file is modelled explicitly: absent/unreadable
(`readFileSync` throws), present but not parseable as JSON (`JSON.parse`
throws), or a parsed JSON object.  `saveConfig` serialises an object and
writes it, so it maps an object to the `valid` file state.
-/

/-- The on-disk state of `~/.config/agent-analytics/config.json`. -/
inductive ConfigFile where
  | absent
  | invalid
  | valid (o : Obj)
deriving DecidableEq

/-- `getConfig`: parse the file, returning the empty object if reading or
parsing throws. -/
def getConfig : ConfigFile → Obj
  | .valid o => o
  | .absent => []
  | .invalid => []

/-- `saveConfig`: serialise the object and write the file. -/
def saveConfig (o : Obj) : ConfigFile := .valid o

/-- `setApiKey`: read the config, set the single `api_key` field, write the
whole object back. -/
def setApiKey (key : String) (cf : ConfigFile) : ConfigFile :=
  saveConfig (objSet (getConfig cf) "api_key" (.str key))

/-- JS `a || b` where `a` is a possibly-undefined JSON value. -/
def jsOrValue (a : Option JValue) (b : JValue) : JValue :=
  match a with
  | some v => if jvTruthy v then v else b
  | none => b

/-- `getApiKey`: `process.env.AGENT_ANALYTICS_KEY || config.api_key || null`.
The environment variable (a string when set) is the first argument. -/
def getApiKey (env : Option String) (cf : ConfigFile) : JValue :=
  jsOrValue (env.map .str) (jsOrValue (objGet (getConfig cf) "api_key") .null)

/-! ### Live dashboard (src/bin/cli.mjs, `cmdLive`)

Data shapes of the live-snapshot endpoint response
(`{active_visitors, active_sessions, events_per_minute, top_pages:[{path, visitors}], recent_events:[{event, timestamp, user_id, properties}]}`).
Every field of a decoded JSON payload may be absent, hence the `Option`s;
the code guards each use with `|| 0` / `|| []` / truthiness tests and the
embedding mirrors those guards at the use sites.
-/

/-- One `top_pages` entry: `{path, visitors}`. -/
structure PageEntry where
  path : Option String
  visitors : Option Nat
deriving DecidableEq, Repr

/-- One `recent_events` entry: `{event, timestamp, user_id, properties}`;
`propPath` models `properties?.path`, the only property the renderer reads. -/
structure EventEntry where
  event : Option String
  timestamp : Option Nat
  user_id : Option String
  propPath : Option String
deriving DecidableEq, Repr

/-- The body returned by `api.getLive(name, {window})` (no `name` field;
the caller adds one). -/
structure ServerSnap where
  active_visitors : Option Nat
  active_sessions : Option Nat
  events_per_minute : Option Nat
  top_pages : Option (List PageEntry)
  recent_events : Option (List EventEntry)
deriving DecidableEq, Repr

/-- A per-project snapshot as used by the tick: the fetched payload tagged
with the project name (`{ name, ...snap }`). -/
structure Snapshot where
  name : String
  active_visitors : Option Nat
  active_sessions : Option Nat
  events_per_minute : Option Nat
  top_pages : Option (List PageEntry)
  recent_events : Option (List EventEntry)
deriving DecidableEq, Repr

/-- `{ name, ...snap }` for a successfully fetched payload. -/
def snapWithName (name : String) (s : ServerSnap) : Snapshot :=
  { name := name
    active_visitors := s.active_visitors
    active_sessions := s.active_sessions
    events_per_minute := s.events_per_minute
    top_pages := s.top_pages
    recent_events := s.recent_events }

/-- The all-zero/empty snapshot substituted when a project's fetch throws:
`{ name, active_visitors: 0, active_sessions: 0, events_per_minute: 0,
top_pages: [], top_events: [], recent_events: [] }` (the `top_events`
field is never read and is not modelled). -/
def fallbackSnapshot (name : String) : Snapshot :=
  { name := name
    active_visitors := some 0
    active_sessions := some 0
    events_per_minute := some 0
    top_pages := some []
    recent_events := some [] }

/-- One tick's snapshot gathering:
```js
const snapshots = await Promise.all(projectNames.map(async (name) => {
  try {
    const snap = await api.getLive(name, { window: windowSec });
    return { name, ...snap };
  } catch {
    return { name, active_visitors: 0, ..., recent_events: [] };
  }
}));
```
`fetch` is the tick's per-project fetch oracle: `.ok` a decoded payload,
`.error` a throw (network error, timeout, HTTP failure, ...).
`Promise.all` keeps the order of `projectNames`. -/
def fetchSnapshots (fetch : String → Except Unit ServerSnap) (names : List String) : List Snapshot :=
  names.map (fun name =>
    match fetch name with
    | .ok snap => snapWithName name snap
    | .error _ => fallbackSnapshot name)

/-- A project as listed by `api.listProjects()` (the fields `cmdLive` reads,
plus the token that distinguishes projects server-side). -/
structure Project where
  name : String
  project_token : String
deriving DecidableEq, Repr

/-- Startup target-set resolution of `cmdLive`, before the loop:
```js
const { projects } = await api.listProjects();
if (!projects || projects.length === 0) { error('No projects found. Create one first.'); }
const targetProjects = project ? projects.filter(p => p.name === project) : projects;
if (project && targetProjects.length === 0) { error(`Project "${project}" not found.`); }
```
`error()` prints and calls `process.exit(1)`, modelled as `.error msg`
(a non-zero exit before any snapshot fetch or render).  The positional
filter argument is a JS string tested for truthiness, so `some ""`
behaves like no filter. -/
def resolveTargets (projects : Option (List Project)) (filter : Option String) : Except String (List Project) :=
  match projects with
  | none => .error "No projects found. Create one first."
  | some ps =>
    if ps.length = 0 then .error "No projects found. Create one first."
    else
      match filter with
      | some name =>
        if name = "" then .ok ps
        else
          let targetProjects := ps.filter (fun p => p.name == name)
          if targetProjects.length = 0 then .error ("Project \"" ++ name ++ "\" not found.")
          else .ok targetProjects
      | none => .ok ps

/-! #### Aggregation (the per-tick reduce loop)

```js
let totalVisitors = 0, totalSessions = 0, totalEpm = 0;
const allPages = [];
const allRecent = [];
for (const snap of snapshots) {
  totalVisitors += snap.active_visitors || 0;
  totalSessions += snap.active_sessions || 0;
  totalEpm += snap.events_per_minute || 0;
  for (const p of (snap.top_pages || []).slice(0, 3)) { allPages.push({ ...p, project: snap.name }); }
  for (const e of (snap.recent_events || []).slice(0, 3)) { allRecent.push({ ...e, project: snap.name }); }
}
```
The single JS loop is split into one fold per accumulator; each fold
traverses `snapshots` in the same order and performs the same updates.
-/

/-- A merged top-pages entry `{ ...p, project: snap.name }`. -/
structure TaggedPage where
  page : PageEntry
  project : String
deriving DecidableEq, Repr

/-- A merged recent-events entry `{ ...e, project: snap.name }`. -/
structure TaggedEvent where
  ev : EventEntry
  project : String
deriving DecidableEq, Repr

/-- The three running totals `(totalVisitors, totalSessions, totalEpm)`. -/
def aggregateTotals (snapshots : List Snapshot) : Nat × Nat × Nat :=
  snapshots.foldl
    (fun acc snap =>
      (acc.1 + orZero snap.active_visitors,
       acc.2.1 + orZero snap.active_sessions,
       acc.2.2 + orZero snap.events_per_minute))
    (0, 0, 0)

/-- The `allPages` accumulator after the loop: pushes, per snapshot in
order, the first 3 `top_pages` entries tagged with the project name. -/
def allPagesOf (snapshots : List Snapshot) : List TaggedPage :=
  snapshots.foldl
    (fun acc snap =>
      acc ++ ((orNil snap.top_pages).take 3).map (fun p => { page := p, project := snap.name }))
    []

/-- The `allRecent` accumulator after the loop: pushes, per snapshot in
order, the first 3 `recent_events` entries tagged with the project name. -/
def allRecentOf (snapshots : List Snapshot) : List TaggedEvent :=
  snapshots.foldl
    (fun acc snap =>
      acc ++ ((orNil snap.recent_events).take 3).map (fun e => { ev := e, project := snap.name }))
    []

/-! #### Sorting

`allRecent.sort((a, b) => (b.timestamp || 0) - (a.timestamp || 0))` and
`allPages.sort((a, b) => (b.visitors || 0) - (a.visitors || 0))`.
ECMAScript 2019 requires `Array.prototype.sort` to be stable, and with a
consistent numeric comparator the result is the unique stable reordering
that is sorted by the key — here descending.  The embedding realises that
specification as a stable insertion sort by a `Nat` key, descending. -/

/-- Insert `x` into a descending-sorted list, before the first element whose
key does not exceed `x`'s (so an incoming earlier element stays ahead of
equal keys). -/
def insertDescBy {α : Type} (key : α → Nat) (x : α) : List α → List α
  | [] => [x]
  | y :: ys => if key y ≤ key x then x :: y :: ys else y :: insertDescBy key x ys

/-- Stable sort, descending by `key`. -/
def sortDescBy {α : Type} (key : α → Nat) : List α → List α
  | [] => []
  | x :: xs => insertDescBy key x (sortDescBy key xs)

/-- `allRecent` after `sort`: descending by `(timestamp || 0)`. -/
def mergedRecent (snapshots : List Snapshot) : List TaggedEvent :=
  sortDescBy (fun e => orZero e.ev.timestamp) (allRecentOf snapshots)

/-- `allPages` after `sort`: descending by `(visitors || 0)`. -/
def mergedPages (snapshots : List Snapshot) : List TaggedPage :=
  sortDescBy (fun p => orZero p.page.visitors) (allPagesOf snapshots)

/-! #### Rendering (the per-tick screen build)

The ANSI constants of `cli.mjs`. -/

def BOLD : String := "\x1b[1m"
def DIM : String := "\x1b[2m"
def GREEN : String := "\x1b[32m"
def YELLOW : String := "\x1b[33m"
def CYAN : String := "\x1b[36m"
def RED : String := "\x1b[31m"
def MAGENTA : String := "\x1b[35m"
def WHITE : String := "\x1b[37m"
def RESET : String := "\x1b[0m"

/-- Visual state of a per-project row. -/
inductive RowStyle where
  | active
  | idle
deriving DecidableEq, Repr

/-- The branch taken for a project's row:
`if (snap.active_visitors > 0 || snap.events_per_minute > 0)` — the
active style, else the idle style. -/
def rowStyle (snap : Snapshot) : RowStyle :=
  if jsGtZero snap.active_visitors || jsGtZero snap.events_per_minute then .active else .idle

/-- The active-row line:
`  ${GREEN}●${RESET} ${BOLD}${snap.name}${RESET}  ${CYAN}${snap.active_visitors}${RESET} visitors  ...`. -/
def activeLine (snap : Snapshot) : String :=
  "  " ++ GREEN ++ "●" ++ RESET ++ " " ++ BOLD ++ snap.name ++ RESET ++ "  " ++
    CYAN ++ showOptNat snap.active_visitors ++ RESET ++ " visitors  " ++
    YELLOW ++ showOptNat snap.active_sessions ++ RESET ++ " sessions  " ++
    MAGENTA ++ showOptNat snap.events_per_minute ++ RESET ++ " evt/min"

/-- The idle-row line: `  ${DIM}○ ${snap.name}  —${RESET}`. -/
def idleLine (name : String) : String :=
  "  " ++ DIM ++ "○ " ++ name ++ "  —" ++ RESET

/-- The rendered per-project row. -/
def projectLine (snap : Snapshot) : String :=
  match rowStyle snap with
  | .active => activeLine snap
  | .idle => idleLine snap.name

/-- The whole rendered Projects section body: one row per snapshot, in order. -/
def projectLines (snapshots : List Snapshot) : List String :=
  snapshots.map projectLine

/-- One rendered Top Pages entry:
```js
const proj = p.project.padEnd(22);
const path = (p.path || '/').padEnd(20);
lines.push(`    ${WHITE}${proj}${RESET} ${DIM}${path}${RESET} ${CYAN}${p.visitors}${RESET}`);
```
-/
def pageLine (p : TaggedPage) : String :=
  "    " ++ WHITE ++ padEnd p.project 22 ++ RESET ++ " " ++
    DIM ++ padEnd (jsOrStr p.page.path "/") 20 ++ RESET ++ " " ++
    CYAN ++ showOptNat p.page.visitors ++ RESET

/-- The rendered Top Pages entries: `for (const p of allPages.slice(0, 8))`. -/
def topPagesLines (snapshots : List Snapshot) : List String :=
  ((mergedPages snapshots).take 8).map pageLine

/-- JS `e.user_id ? e.user_id.slice(0, 12) : ''`. -/
def uidShort (u : Option String) : String :=
  match u with
  | some s => if s = "" then "" else s.take 12
  | none => ""

/-- One rendered Recent Events entry:
```js
const ts = new Date(e.timestamp).toLocaleTimeString();
const proj = (e.project || '').padEnd(20);
const evt = (e.event || '').padEnd(16);
const path = (e.properties?.path || '').padEnd(20);
const uid = e.user_id ? e.user_id.slice(0, 12) : '';
lines.push(`    ${DIM}${ts}${RESET}  ${WHITE}${proj}${RESET} ${GREEN}${evt}${RESET} ${DIM}${path}${RESET} ${DIM}${uid}${RESET}`);
```
`fmtTime` abstracts `new Date(t).toLocaleTimeString()` (locale- and
timezone-dependent; `none` is `new Date(undefined)`, an invalid date). -/
def eventLine (fmtTime : Option Nat → String) (e : TaggedEvent) : String :=
  "    " ++ DIM ++ fmtTime e.ev.timestamp ++ RESET ++ "  " ++
    WHITE ++ padEnd e.project 20 ++ RESET ++ " " ++
    GREEN ++ padEnd (jsOrStr e.ev.event "") 16 ++ RESET ++ " " ++
    DIM ++ padEnd (jsOrStr e.ev.propPath "") 20 ++ RESET ++ " " ++
    DIM ++ uidShort e.ev.user_id ++ RESET

/-- The rendered Recent Events entries: `for (const e of allRecent.slice(0, 10))`. -/
def recentLines (fmtTime : Option Nat → String) (snapshots : List Snapshot) : List String :=
  ((mergedRecent snapshots).take 10).map (eventLine fmtTime)

/-! ### Helper lemmas about the stable descending sort and the accumulator folds -/

theorem insertDescBy_perm {α : Type} (key : α → Nat) (x : α) (l : List α) :
    List.Perm (insertDescBy key x l) (x :: l) := by
  induction l with
  | nil => simp [insertDescBy]
  | cons y ys ih =>
    by_cases h : key y ≤ key x
    · simp [insertDescBy, h]
    · simp only [insertDescBy, if_neg h]
      exact (ih.cons y).trans (List.Perm.swap x y ys)

theorem insertDescBy_pairwise {α : Type} (key : α → Nat) (x : α) (l : List α)
    (h : l.Pairwise (fun a b => key b ≤ key a)) :
    (insertDescBy key x l).Pairwise (fun a b => key b ≤ key a) := by
  induction l with
  | nil => simp [insertDescBy]
  | cons y ys ih =>
    rcases List.pairwise_cons.mp h with ⟨hy, hys⟩
    by_cases hxy : key y ≤ key x
    · simp only [insertDescBy, if_pos hxy]
      refine List.pairwise_cons.mpr ⟨?_, h⟩
      intro z hz
      rcases List.mem_cons.mp hz with rfl | hz'
      · exact hxy
      · exact le_trans (hy z hz') hxy
    · simp only [insertDescBy, if_neg hxy]
      refine List.pairwise_cons.mpr ⟨?_, ih hys⟩
      intro z hz
      have hz' : z ∈ x :: ys := (insertDescBy_perm key x ys).mem_iff.mp hz
      rcases List.mem_cons.mp hz' with rfl | hz''
      · omega
      · exact hy z hz''

theorem sortDescBy_perm {α : Type} (key : α → Nat) (l : List α) :
    List.Perm (sortDescBy key l) l := by
  induction l with
  | nil => simp [sortDescBy]
  | cons x xs ih =>
    exact (insertDescBy_perm key x (sortDescBy key xs)).trans (ih.cons x)

theorem sortDescBy_pairwise {α : Type} (key : α → Nat) (l : List α) :
    (sortDescBy key l).Pairwise (fun a b => key b ≤ key a) := by
  induction l with
  | nil => simp [sortDescBy]
  | cons x xs ih => exact insertDescBy_pairwise key x (sortDescBy key xs) ih

theorem insertDescBy_filter {α : Type} (key : α → Nat) (k : Nat) (x : α) (l : List α) :
    (insertDescBy key x l).filter (fun z => key z == k) =
      (if key x = k then x :: l.filter (fun z => key z == k)
       else l.filter (fun z => key z == k)) := by
  induction l with
  | nil =>
    by_cases h : key x = k <;> simp [insertDescBy, h]
  | cons y ys ih =>
    by_cases hxy : key y ≤ key x
    · rw [insertDescBy, if_pos hxy]
      by_cases h : key x = k <;> simp [List.filter_cons, h]
    · rw [insertDescBy, if_neg hxy]
      by_cases h : key x = k
      · have hyk : ¬ (key y = k) := by omega
        rw [if_pos h]
        simp [List.filter_cons, hyk, ih, h]
      · rw [if_neg h]
        simp [List.filter_cons, ih, h]

theorem sortDescBy_filter {α : Type} (key : α → Nat) (k : Nat) (l : List α) :
    (sortDescBy key l).filter (fun z => key z == k) = l.filter (fun z => key z == k) := by
  induction l with
  | nil => rfl
  | cons x xs ih =>
    rw [sortDescBy, insertDescBy_filter]
    by_cases h : key x = k <;> simp [List.filter_cons, h, ih]

theorem foldl_append_map {β γ : Type} (g : β → List γ) (l : List β) (init : List γ) :
    l.foldl (fun acc s => acc ++ g s) init = init ++ (l.map g).flatten := by
  induction l generalizing init with
  | nil => simp
  | cons s ss ih => simp [List.foldl_cons, ih]

theorem aggregateTotals_foldl (snapshots : List Snapshot) (a b c : Nat) :
    snapshots.foldl
      (fun acc snap =>
        (acc.1 + orZero snap.active_visitors,
         acc.2.1 + orZero snap.active_sessions,
         acc.2.2 + orZero snap.events_per_minute))
      (a, b, c) =
      (a + (snapshots.map (fun s => orZero s.active_visitors)).sum,
       b + (snapshots.map (fun s => orZero s.active_sessions)).sum,
       c + (snapshots.map (fun s => orZero s.events_per_minute)).sum) := by
  induction snapshots generalizing a b c with
  | nil => simp
  | cons s ss ih => simp [List.foldl_cons, ih, Nat.add_assoc]

/-! ### The claims -/

/-- C1: for every list of per-project snapshots gathered in one tick, the
aggregated frame's totals are the arithmetic sums over the snapshots:
total visitors is the sum of `active_visitors`, total sessions the sum of
`active_sessions`, total events-per-minute the sum of `events_per_minute`
— including when some snapshots are the all-zero fallback (the statement
quantifies over all snapshot lists, which contain the fallback snapshots
among the possible values). -/
theorem live_totals_are_sums (snapshots : List Snapshot) :
    aggregateTotals snapshots =
      ((snapshots.map (fun s => orZero s.active_visitors)).sum,
       (snapshots.map (fun s => orZero s.active_sessions)).sum,
       (snapshots.map (fun s => orZero s.events_per_minute)).sum) := by
  have h := aggregateTotals_foldl snapshots 0 0 0
  simpa [aggregateTotals] using h

/-- C2: in every tick, a per-project snapshot fetch that throws is caught
per project: the result list still has exactly one snapshot per target
project, in order (so the project is not dropped from the rendered
per-project list, which has one row per snapshot), and the failed
project's snapshot is the all-zero/empty fallback.  `fetchSnapshots`
returns a plain list — by construction no fetch failure escapes it. -/
theorem live_fetch_failure_caught (fetch : String → Except Unit ServerSnap)
    (names : List String) :
    (fetchSnapshots fetch names).map Snapshot.name = names ∧
    (projectLines (fetchSnapshots fetch names)).length = names.length ∧
    (∀ i, (h : i < names.length) → fetch (names.get ⟨i, h⟩) = .error () →
      (fetchSnapshots fetch names).get? i = some (fallbackSnapshot (names.get ⟨i, h⟩))) := by
  refine ⟨?_, ?_, ?_⟩
  · induction names with
    | nil => rfl
    | cons n ns ih =>
      simp only [fetchSnapshots, List.map_cons] at ih ⊢
      refine congrArg₂ List.cons ?_ ih
      cases fetch n <;> rfl
  · simp [projectLines, fetchSnapshots]
  · intro i h hf
    simp only [fetchSnapshots, List.get?_eq_getElem?, List.getElem?_map]
    rw [List.getElem?_eq_getElem h]
    simp [List.get_eq_getElem] at hf
    simp [hf]

/-- C2 witness: with a fetch that always throws, both projects appear, in
order, as fallback snapshots. -/
theorem live_fetch_failure_caught_witness :
    (fetchSnapshots (fun _ => Except.error ()) ["alpha", "beta"]).get? 1 =
      some (fallbackSnapshot "beta") := by
  have h := live_fetch_failure_caught (fun _ => Except.error ()) ["alpha", "beta"]
  exact h.2.2 1 (by decide) rfl

/-- C3: the merged recent-events list is sorted by `(timestamp || 0)`
descending, and entries with equal timestamps appear exactly as they do in
the pre-sort accumulator `allRecent` — which lists the projects in the
original fetch order — so ties retain the relative order of their source
projects, with no secondary sort key.  The sorted list is a permutation
of the accumulator. -/
theorem live_recent_sorted_stable (snapshots : List Snapshot) :
    (mergedRecent snapshots).Pairwise
      (fun a b => orZero b.ev.timestamp ≤ orZero a.ev.timestamp) ∧
    (∀ t : Nat,
      (mergedRecent snapshots).filter (fun e => orZero e.ev.timestamp == t) =
        (allRecentOf snapshots).filter (fun e => orZero e.ev.timestamp == t)) ∧
    List.Perm (mergedRecent snapshots) (allRecentOf snapshots) := by
  refine ⟨sortDescBy_pairwise _ _, fun t => sortDescBy_filter _ t _, sortDescBy_perm _ _⟩

/-- C4: the merged top-pages list is a permutation of the concatenation,
in fetch order, of the first 3 `top_pages` entries of each snapshot tagged
with that snapshot's project name; it is sorted by `(visitors || 0)`
descending; and entries with equal visitor counts appear exactly as in the
pre-sort accumulator (per-project fetch order). -/
theorem live_pages_merged (snapshots : List Snapshot) :
    List.Perm (mergedPages snapshots)
      ((snapshots.map (fun snap =>
        ((orNil snap.top_pages).take 3).map
          (fun p => { page := p, project := snap.name : TaggedPage }))).flatten) ∧
    (mergedPages snapshots).Pairwise
      (fun a b => orZero b.page.visitors ≤ orZero a.page.visitors) ∧
    (∀ v : Nat,
      (mergedPages snapshots).filter (fun p => orZero p.page.visitors == v) =
        (allPagesOf snapshots).filter (fun p => orZero p.page.visitors == v)) := by
  refine ⟨?_, sortDescBy_pairwise _ _, fun v => sortDescBy_filter _ v _⟩
  have hfold := foldl_append_map
    (fun snap => ((orNil snap.top_pages).take 3).map
      (fun p => { page := p, project := snap.name : TaggedPage })) snapshots []
  rw [mergedPages, allPagesOf, hfold, List.nil_append]
  exact sortDescBy_perm _ _

/-- C5: for every tick, the rendered top-pages section has at most 8
entries and the rendered recent-events section at most 10, whatever the
projects contribute. -/
theorem live_render_caps (fmtTime : Option Nat → String) (snapshots : List Snapshot) :
    (topPagesLines snapshots).length ≤ 8 ∧
    (recentLines fmtTime snapshots).length ≤ 10 := by
  constructor
  · simp only [topPagesLines, List.length_map]
    exact le_trans (List.length_take_le 8 _) (le_refl 8)
  · simp only [recentLines, List.length_map]
    exact le_trans (List.length_take_le 10 _) (le_refl 10)

/-- With unique project names, at most one project passes the name filter. -/
theorem filter_name_length_le_one (ps : List Project) (name : String)
    (h : (ps.map Project.name).Nodup) :
    (ps.filter (fun p => p.name == name)).length ≤ 1 := by
  induction ps with
  | nil => simp
  | cons p rest ih =>
    simp only [List.map_cons, List.nodup_cons] at h
    obtain ⟨hp, hrest⟩ := h
    by_cases hpn : p.name = name
    · have hrfil : rest.filter (fun q => q.name == name) = [] := by
        refine List.filter_eq_nil_iff.mpr ?_
        intro q hq hqn
        refine hp ?_
        have hqname : q.name = name := by simpa using hqn
        exact List.mem_map.mpr ⟨q, hq, by rw [hqname, hpn]⟩
      simp [List.filter_cons, hpn, hrfil]
    · simp only [List.filter_cons]
      have : (p.name == name) = false := by simpa using hpn
      rw [this]
      simpa using ih hrest

/-- C6 counterexample: the claim says the target set is narrowed to
"exactly one" project with the filtered name, but `cmdLive` narrows with
`projects.filter(p => p.name === project)`, which keeps every project of
that name: with two distinct projects both named "A", resolution succeeds
with a target set of two projects, not one. -/
theorem live_filter_not_exactly_one :
    resolveTargets
        (some [{ name := "A", project_token := "t1" },
               { name := "A", project_token := "t2" }]) (some "A") =
      .ok [{ name := "A", project_token := "t1" },
           { name := "A", project_token := "t2" }] ∧
    ([{ name := "A", project_token := "t1" },
      { name := "A", project_token := "t2" }] : List Project).length ≠ 1 := by
  constructor
  · rfl
  · decide

/-- C6 (amended): target-set resolution happens once before the loop; a
missing or empty project list, and a non-empty filter matching no project,
each fail with `error(...)` — a non-zero exit before any snapshot fetch or
render; when the filter matches, the target set is exactly the non-empty
sublist of projects whose name equals the filter (every member bears that
name), and it is a single project precisely when project names are unique
in the fetched list. -/
theorem live_target_resolution (ps : List Project) (name : String)
    (targets : List Project) :
    (resolveTargets none (some name) = .error "No projects found. Create one first.") ∧
    (resolveTargets (some []) (some name) = .error "No projects found. Create one first.") ∧
    (name ≠ "" → ps ≠ [] → (∀ p ∈ ps, p.name ≠ name) →
      resolveTargets (some ps) (some name) =
        .error ("Project \"" ++ name ++ "\" not found.")) ∧
    (name ≠ "" → resolveTargets (some ps) (some name) = .ok targets →
      targets = ps.filter (fun p => p.name == name) ∧ targets ≠ [] ∧
        (∀ p ∈ targets, p.name = name)) ∧
    (name ≠ "" → resolveTargets (some ps) (some name) = .ok targets →
      (ps.map Project.name).Nodup → targets.length = 1) := by
  have hunfold : resolveTargets (some ps) (some name) =
      if ps.length = 0 then .error "No projects found. Create one first."
      else if name = "" then .ok ps
      else if (ps.filter (fun p => p.name == name)).length = 0 then
        .error ("Project \"" ++ name ++ "\" not found.")
      else .ok (ps.filter (fun p => p.name == name)) := by
    simp only [resolveTargets]
  have hok_char : name ≠ "" → resolveTargets (some ps) (some name) = .ok targets →
      targets = ps.filter (fun p => p.name == name) ∧ targets ≠ [] ∧
        (∀ p ∈ targets, p.name = name) := by
    intro hne hok
    rw [hunfold] at hok
    by_cases hlen : ps.length = 0
    · rw [if_pos hlen] at hok
      cases hok
    · rw [if_neg hlen, if_neg hne] at hok
      by_cases hfl : (ps.filter (fun p => p.name == name)).length = 0
      · rw [if_pos hfl] at hok
        cases hok
      · rw [if_neg hfl] at hok
        cases hok
        refine ⟨rfl, ?_, ?_⟩
        · intro h
          exact hfl (by simp [h])
        · intro p hp
          simpa using (List.mem_filter.mp hp).2
  refine ⟨rfl, rfl, ?_, hok_char, ?_⟩
  · intro hne hps hnone
    have hlen : ¬ (ps.length = 0) := fun h => hps (List.length_eq_zero.mp h)
    have hfil : ps.filter (fun p => p.name == name) = [] := by
      refine List.filter_eq_nil_iff.mpr ?_
      intro p hp
      simpa using hnone p hp
    rw [hunfold, if_neg hlen, if_neg hne, if_pos (by rw [hfil]; rfl)]
  · intro hne hok hnodup
    obtain ⟨htg, htne, -⟩ := hok_char hne hok
    subst htg
    have hle := filter_name_length_le_one ps name hnodup
    have hpos : (ps.filter (fun p => p.name == name)).length ≠ 0 := by
      intro h
      exact htne (List.length_eq_zero.mp h)
    omega

/-- C6 witness: filtering to a name absent from a non-empty project list
fails with the not-found error, before any snapshot fetch or render. -/
theorem live_target_resolution_witness :
    resolveTargets (some [{ name := "site", project_token := "t1" }]) (some "nope") =
      .error ("Project \"nope\" not found.") := by
  have h := live_target_resolution [{ name := "site", project_token := "t1" }] "nope" []
  exact h.2.2.1 (by decide) (by decide) (by decide)

/-- C7: a per-project row is rendered in the active style iff the
snapshot's visitor count or events-per-minute is nonzero, and otherwise in
the idle style; any idle row (in particular the fallback substituted for a
failed fetch) renders identically to the fallback snapshot of the same
name, i.e. a failed project is indistinguishable from one that genuinely
reported zero activity. -/
theorem live_row_style (snap : Snapshot) :
    (rowStyle snap = .active ↔
      (orZero snap.active_visitors ≠ 0 ∨ orZero snap.events_per_minute ≠ 0)) ∧
    (∀ n : String, rowStyle (fallbackSnapshot n) = .idle) ∧
    (rowStyle snap = .idle → projectLine snap = projectLine (fallbackSnapshot snap.name)) := by
  refine ⟨?_, fun n => rfl, ?_⟩
  · rcases hv : snap.active_visitors with _ | (_ | v) <;>
      rcases he : snap.events_per_minute with _ | (_ | e) <;>
        simp [rowStyle, jsGtZero, orZero, hv, he]
  · intro h
    rw [projectLine, h]
    rfl

/-- C7 witness: a project with zero visitors and zero events-per-minute
(but live sessions) is idle and renders exactly like the fetch-failure
fallback of the same name. -/
theorem live_row_style_witness :
    rowStyle ⟨"p", some 0, some 5, some 0, some [], some []⟩ = .idle ∧
    projectLine ⟨"p", some 0, some 5, some 0, some [], some []⟩ =
      projectLine (fallbackSnapshot "p") := by
  have h := live_row_style ⟨"p", some 0, some 5, some 0, some [], some []⟩
  exact ⟨by decide, h.2.2 (by decide)⟩

/-- C8 counterexample: the claim says the thrown message is the
server-supplied `error` field whenever it is present, but the code uses JS
`||`, which skips a falsy field: a 500 response whose body carries the
present-but-empty `error: ""` yields the generic "HTTP 500", not the
server-supplied empty string. -/
theorem request_present_error_ignored :
    objGet [("error", JValue.str "")] "error" = some (JValue.str "") ∧
    request 500 [("error", JValue.str "")] = .error "HTTP 500" ∧
    "HTTP 500" ≠ "" := by
  refine ⟨rfl, rfl, by decide⟩

/-- C8 (amended): on a success status (200–299) `request` returns the
decoded body and never throws; on a non-success status it throws an error
whose message is the server-supplied `error` field of the decoded body
when that field is present and truthy (for a string: non-empty), and the
generic "HTTP <status>" otherwise. -/
theorem request_outcome (status : Nat) (data : Obj) :
    (200 ≤ status → status < 300 → request status data = .ok data) ∧
    (¬ (200 ≤ status ∧ status < 300) →
      ∃ msg, request status data = .error msg ∧
        ((∃ v, objGet data "error" = some v ∧ jvTruthy v = true ∧ msg = jvToString v) ∨
         (msg = "HTTP " ++ toString status ∧
           ∀ v, objGet data "error" = some v → jvTruthy v = false))) := by
  constructor
  · intro h1 h2
    rw [request, if_pos]
    simp [resOk, h1, h2]
  · intro h
    have hok : resOk status = false := by
      simp only [resOk]
      rcases Decidable.not_and_iff_or_not.mp h with h' | h' <;> simp [h']
    have hreq : request status data = .error (errMessage status data) := by
      rw [request, hok]
      rfl
    rcases hg : objGet data "error" with _ | v
    · refine ⟨errMessage status data, hreq, Or.inr ⟨?_, ?_⟩⟩
      · rw [errMessage, hg]
      · intro w hw
        simp at hw
    · by_cases ht : jvTruthy v = true
      · refine ⟨errMessage status data, hreq, Or.inl ⟨v, rfl, ht, ?_⟩⟩
        rw [errMessage, hg]
        simp [ht]
      · refine ⟨errMessage status data, hreq, Or.inr ⟨?_, ?_⟩⟩
        · rw [errMessage, hg]
          simp [ht]
        · intro w hw
          injection hw with hvw
          subst hvw
          simpa using ht

/-- C8 witness: a 204 success returns its (empty) body; a 404 with a
non-empty server message throws with that message. -/
theorem request_outcome_witness :
    request 204 [] = .ok [] ∧
    (∃ msg, request 404 [("error", JValue.str "not found")] = .error msg ∧
      ((∃ v, objGet [("error", JValue.str "not found")] "error" = some v ∧
          jvTruthy v = true ∧ msg = jvToString v) ∨
       (msg = "HTTP " ++ toString 404 ∧
         ∀ v, objGet [("error", JValue.str "not found")] "error" = some v →
           jvTruthy v = false))) := by
  refine ⟨(request_outcome 204 []).1 (by decide) (by decide), ?_⟩
  exact (request_outcome 404 [("error", JValue.str "not found")]).2 (by decide)

/-- The in-place field update reads back unchanged at every other key. -/
theorem objGet_mapUpdate_ne (o : Obj) (k k' : String) (v : JValue) (h : k' ≠ k) :
    objGet (List.map (fun kv => if kv.1 == k then (k, v) else kv) o) k' = objGet o k' := by
  induction o with
  | nil => rfl
  | cons kv rest ih =>
    simp only [objGet, List.map_cons] at ih ⊢
    by_cases hk : kv.1 = k
    · rw [if_pos (show (kv.1 == k) = true by simpa using hk)]
      have e2 : ((k : String) == k') = false := by simpa using Ne.symm h
      have e3 : (kv.1 == k') = false := by rw [hk]; exact e2
      simp only [List.find?_cons, e2, e3]
      exact ih
    · rw [if_neg (show ¬ ((kv.1 == k) = true) by simpa using hk)]
      by_cases hkv : kv.1 = k'
      · have e : (kv.1 == k') = true := by simpa using hkv
        simp only [List.find?_cons, e]
      · have e : (kv.1 == k') = false := by simpa using hkv
        simp only [List.find?_cons, e]
        exact ih

/-- The appended field is invisible at every other key. -/
theorem objGet_append_ne (o : Obj) (k k' : String) (v : JValue) (h : k' ≠ k) :
    objGet (o ++ [(k, v)]) k' = objGet o k' := by
  induction o with
  | nil =>
    have e2 : ((k : String) == k') = false := by simpa using Ne.symm h
    simp [objGet, List.find?_cons, e2]
  | cons kv rest ih =>
    simp only [objGet, List.cons_append, List.find?_cons] at ih ⊢
    by_cases hkv : kv.1 = k'
    · have e : (kv.1 == k') = true := by simpa using hkv
      simp only [e]
    · have e : (kv.1 == k') = false := by simpa using hkv
      simp only [e]
      exact ih

/-- The in-place field update reads back as the written value. -/
theorem objGet_mapUpdate_self (o : Obj) (k : String) (v : JValue)
    (hf : (List.find? (fun kv => kv.1 == k) o).isSome) :
    objGet (List.map (fun kv => if kv.1 == k then (k, v) else kv) o) k = some v := by
  induction o with
  | nil => simp [List.find?] at hf
  | cons kv rest ih =>
    by_cases hk : kv.1 = k
    · rw [List.map_cons, if_pos (show (kv.1 == k) = true by simpa using hk)]
      simp [objGet, List.find?_cons]
    · have e1 : (kv.1 == k) = false := by simpa using hk
      rw [List.map_cons, if_neg (show ¬ ((kv.1 == k) = true) by simp [e1])]
      have hf' : (List.find? (fun kv => kv.1 == k) rest).isSome := by
        simpa [List.find?_cons, e1] using hf
      simp only [objGet, List.find?_cons, e1]
      simpa [objGet] using ih hf'

/-- The appended field reads back as the written value when the key was absent. -/
theorem objGet_append_self (o : Obj) (k : String) (v : JValue)
    (hf : List.find? (fun kv => kv.1 == k) o = none) :
    objGet (o ++ [(k, v)]) k = some v := by
  induction o with
  | nil => simp [objGet, List.find?_cons]
  | cons kv rest ih =>
    cases e : (kv.1 == k) with
    | true =>
      simp only [List.find?_cons, e] at hf
      exact absurd hf (by simp)
    | false =>
      simp only [List.find?_cons, e] at hf
      simp only [objGet, List.cons_append, List.find?_cons, e]
      simpa [objGet] using ih hf

/-- A JS property write leaves every other property unchanged. -/
theorem objGet_objSet_ne (o : Obj) (k k' : String) (v : JValue) (h : k' ≠ k) :
    objGet (objSet o k v) k' = objGet o k' := by
  rw [objSet]
  by_cases hf : (List.find? (fun kv => kv.1 == k) o).isSome
  · rw [if_pos hf]
    exact objGet_mapUpdate_ne o k k' v h
  · rw [if_neg hf]
    exact objGet_append_ne o k k' v h

/-- A JS property write makes the written property read back as written. -/
theorem objGet_objSet_self (o : Obj) (k : String) (v : JValue) :
    objGet (objSet o k v) k = some v := by
  rw [objSet]
  by_cases hf : (List.find? (fun kv => kv.1 == k) o).isSome
  · rw [if_pos hf]
    exact objGet_mapUpdate_self o k v hf
  · rw [if_neg hf]
    refine objGet_append_self o k v ?_
    exact Option.not_isSome_iff_eq_none.mp hf

/-- C9: `setApiKey(k)` reads the existing config, sets the single
`api_key` field and writes the whole object back: afterwards the file
holds `api_key = k`, and every other field reads back exactly as it did
from the prior config file. -/
theorem setApiKey_frame (cf : ConfigFile) (k : String) :
    (∀ key : String, key ≠ "api_key" →
      objGet (getConfig (setApiKey k cf)) key = objGet (getConfig cf) key) ∧
    objGet (getConfig (setApiKey k cf)) "api_key" = some (.str k) := by
  constructor
  · intro key hkey
    exact objGet_objSet_ne (getConfig cf) "api_key" key (.str k) hkey
  · exact objGet_objSet_self (getConfig cf) "api_key" (.str k)

/-- C9 witness: updating the key of a config that also stores `base_url`,
`email` and `github_login` leaves those fields readable unchanged and sets
`api_key`. -/
theorem setApiKey_frame_witness :
    objGet (getConfig (setApiKey "aak_new" (ConfigFile.valid
      [("api_key", .str "aak_old"), ("base_url", .str "https://x.example"),
       ("email", .str "a@b.c"), ("github_login", .str "octo")]))) "email" =
      some (.str "a@b.c") ∧
    objGet (getConfig (setApiKey "aak_new" (ConfigFile.valid
      [("api_key", .str "aak_old"), ("base_url", .str "https://x.example"),
       ("email", .str "a@b.c"), ("github_login", .str "octo")]))) "api_key" =
      some (.str "aak_new") := by
  have h := setApiKey_frame (ConfigFile.valid
    [("api_key", .str "aak_old"), ("base_url", .str "https://x.example"),
     ("email", .str "a@b.c"), ("github_login", .str "octo")]) "aak_new"
  exact ⟨h.1 "email" (by decide), h.2⟩

/-- C10: `getConfig` is total over the file states — when the file is
absent/unreadable or holds invalid JSON it returns the empty object
instead of throwing — and consequently `getApiKey` returns `null` (it
never throws) when the environment override is unset and no valid config
file exists. -/
theorem getConfig_total (cf : ConfigFile) :
    ((cf = .absent ∨ cf = .invalid) → getConfig cf = []) ∧
    ((cf = .absent ∨ cf = .invalid) → getApiKey none cf = .null) := by
  constructor
  · rintro (rfl | rfl) <;> rfl
  · rintro (rfl | rfl) <;> rfl

/-- C10 witness: with no environment override and an unparseable config
file, `getConfig` yields the empty object and `getApiKey` yields `null`. -/
theorem getConfig_total_witness :
    getConfig ConfigFile.invalid = [] ∧ getApiKey none ConfigFile.invalid = .null := by
  have h := getConfig_total ConfigFile.invalid
  exact ⟨h.1 (Or.inr rfl), h.2 (Or.inr rfl)⟩
